import Mathlib

/-!
Verification of the opensecagent detection-and-response pipeline.

Shallow embedding of the Python sources:
 * `opensecagent/llm_agent.py`   — command whitelist and bounded agent loop
 * `opensecagent/policy_engine.py` — allowed containment actions
 * `opensecagent/models.py`      — `Severity`, `Event`, `Incident`
 * `opensecagent/detector/{ports,users,containers,auth}.py` — diff and probe detectors
 * `opensecagent/detector/manager.py` — diff-state updates
 * `opensecagent/collector/drift.py` — critical-file drift monitoring

Python `set`s are modelled as `Finset String`, dicts with string keys as
association lists with distinct keys, machine floats (`confidence`) as `ℚ`,
and UTC instants as `Int` timestamps.
-/

namespace OpenSecAgent

/-! ## Python string primitives

`str.strip()` (whitespace at both ends) and the whitespace class used by
the regex `\s`, restricted to the ASCII range the agent's commands use. -/

def isWs (c : Char) : Bool :=
  c = ' ' || c = '\t' || c = '\n' || c = '\r' || c = '\x0b' || c = '\x0c'

/-- Left part of Python `str.strip()`. -/
def pyLStrip (l : List Char) : List Char := l.dropWhile isWs

/-- Right part of Python `str.strip()`. -/
def pyRStrip (l : List Char) : List Char := l.rdropWhile isWs

/-- Python `str.strip()` on a character list. -/
def pyStrip (l : List Char) : List Char := pyRStrip (pyLStrip l)

/-- Python `str.strip()` on a string. -/
def pyStripS (s : String) : String := String.mk (pyStrip s.data)

/-- Case-insensitive character comparison (`re.I`). -/
def lowerEq (a b : Char) : Bool := a.toLower == b.toLower

/-! ## The command whitelist of `llm_agent.py`

Each entry of `ALLOWED_COMMANDS` is an anchored regular expression
(`re.search` with a leading `^` and `re.I`).  The patterns only use
literals, `\s+`, the character class `[lL]` and an optional trailing `$`,
so they are embedded as a list of the following atoms, matched from the
start of the (stripped) command.  A pattern list that ends without `eos`
accepts any remaining text, exactly as the Python regexes do. -/

inductive Pat where
  | lit (s : String)
  | ws1
  | cls (cs : List Char)
  | eos
deriving DecidableEq, Repr

/-- Case-insensitive literal matching; returns the unconsumed remainder. -/
def litMatch : List Char → List Char → Option (List Char)
  | [], rest => some rest
  | _ :: _, [] => none
  | p :: ps, c :: cs => if lowerEq p c then litMatch ps cs else none

/-- Anchored matching of a pattern against a character list.  `ws1`
consumes one mandatory whitespace character and then the maximal run of
further whitespace; in every whitelist pattern the atom after `\s+`
starts with a non-whitespace character, so this is equivalent to the
backtracking regex semantics. -/
def patMatch : List Pat → List Char → Bool
  | [], _ => true
  | Pat.lit s :: ps, cs =>
      match litMatch s.data cs with
      | some rest => patMatch ps rest
      | none => false
  | Pat.ws1 :: ps, cs =>
      match cs with
      | [] => false
      | c :: rest => if isWs c then patMatch ps (rest.dropWhile isWs) else false
  | Pat.cls chars :: ps, cs =>
      match cs with
      | [] => false
      | c :: rest => if chars.any (fun a => lowerEq a c) then patMatch ps rest else false
  | Pat.eos :: ps, cs => cs.isEmpty && patMatch ps cs

/-- `(r"^ss\s+-", False)` — named because theorems about command injection use it. -/
def ssDashPat : List Pat := [Pat.lit "ss", Pat.ws1, Pat.lit "-"]

/-- `(r"^docker\s+ps", False)`. -/
def dockerPsPat : List Pat := [Pat.lit "docker", Pat.ws1, Pat.lit "ps"]

/-- `ALLOWED_COMMANDS` from `llm_agent.py` (the `allow_shell` booleans of the
source tuples are never read by `is_command_allowed` and are dropped). -/
def ALLOWED_COMMANDS : List (List Pat) := [
  [Pat.lit "apt", Pat.ws1, Pat.lit "list", Pat.ws1],
  [Pat.lit "apt-cache", Pat.ws1],
  [Pat.lit "dpkg", Pat.ws1, Pat.lit "-", Pat.cls ['l', 'L']],
  [Pat.lit "rpm", Pat.ws1, Pat.lit "-qa"],
  ssDashPat,
  [Pat.lit "netstat", Pat.ws1, Pat.lit "-"],
  dockerPsPat,
  [Pat.lit "docker", Pat.ws1, Pat.lit "images"],
  [Pat.lit "docker", Pat.ws1, Pat.lit "inspect", Pat.ws1],
  [Pat.lit "cat", Pat.ws1, Pat.lit "/etc/"],
  [Pat.lit "ls", Pat.ws1, Pat.lit "-la", Pat.ws1, Pat.lit "/etc/"],
  [Pat.lit "getent", Pat.ws1],
  [Pat.lit "systemctl", Pat.ws1, Pat.lit "list-units"],
  [Pat.lit "systemctl", Pat.ws1, Pat.lit "status", Pat.ws1],
  [Pat.lit "id", Pat.ws1],
  [Pat.lit "whoami", Pat.eos],
  [Pat.lit "uname", Pat.ws1, Pat.lit "-a", Pat.eos],
  [Pat.lit "hostname", Pat.eos],
  [Pat.lit "apt", Pat.ws1, Pat.lit "install", Pat.ws1, Pat.lit "-y", Pat.ws1],
  [Pat.lit "apt", Pat.ws1, Pat.lit "upgrade", Pat.ws1, Pat.lit "-y", Pat.eos],
  [Pat.lit "apt-get", Pat.ws1, Pat.lit "install", Pat.ws1, Pat.lit "-y", Pat.ws1],
  [Pat.lit "apt-get", Pat.ws1, Pat.lit "upgrade", Pat.ws1, Pat.lit "-y", Pat.eos],
  [Pat.lit "docker", Pat.ws1, Pat.lit "stop", Pat.ws1],
  [Pat.lit "docker", Pat.ws1, Pat.lit "rm", Pat.ws1, Pat.lit "-f", Pat.ws1],
  [Pat.lit "ufw", Pat.ws1, Pat.lit "deny", Pat.ws1],
  [Pat.lit "iptables", Pat.ws1, Pat.lit "-I", Pat.ws1, Pat.lit "INPUT", Pat.ws1]]

/-- `is_command_allowed` (`llm_agent.py`, lines 45–53): strip, reject empty
strings and `#` comments, then try every whitelist pattern. -/
def is_command_allowed (cmd : String) : Bool :=
  let c := pyStrip cmd.data
  if c.isEmpty then false
  else if c.head? = some '#' then false
  else ALLOWED_COMMANDS.any (fun p => patMatch p c)

/-! ## The agent loop of `LLMAgent.run_agent_loop`

One model response, as consumed by the loop after `parse_llm_commands`
(lines 167): the `cmd` strings of the suggested command dicts and the
`done` flag.  The parser can produce arbitrary strings, so the loop is
verified for every such sequence; the `mode` argument ("scan"/"resolve")
only selects the prompt and model name and never reaches the command
filter, so it is not part of the state. -/

structure Resp where
  commands : List String
  done : Bool
deriving DecidableEq, Repr

/-- Observable state of one loop run: the `iteration` and
`total_commands` counters, the `actions_taken` list, and the trace
`executed_cmds` of every string handed to `_execute_command`. -/
structure AgentState where
  iteration : Nat
  total_commands : Nat
  executed_cmds : List String
  actions_taken : List String
deriving DecidableEq, Repr

/-- Lines 172–179: each suggested `cmd` is stripped, and skipped unless it
is nonempty and `is_command_allowed`; the survivors are executed in order. -/
def execFilter (cmds : List String) : List String :=
  (cmds.map pyStripS).filter (fun cmd => !cmd.data.isEmpty && is_command_allowed cmd)

/-- The state update of one loop iteration (lines 150 and 170–182). -/
def stepState (st : AgentState) (r : Resp) : AgentState :=
  let ex := execFilter r.commands
  { iteration := st.iteration + 1
    total_commands := st.total_commands + ex.length
    executed_cmds := st.executed_cmds ++ ex
    actions_taken := st.actions_taken ++ ex }

/-- The `while iteration < self._max_iterations` loop (lines 149–195),
with the remaining iteration budget as fuel.  An exhausted response list
models the `_call_llm` failure path (lines 152–160): the iteration counter
was already incremented, then the loop breaks.  Line 189: the loop exits
when the response set `done` or the iteration executed zero commands. -/
def agentLoop : Nat → List Resp → AgentState → AgentState
  | 0, _, st => st
  | _ + 1, [], st => { st with iteration := st.iteration + 1 }
  | fuel + 1, r :: rest, st =>
      let st2 := stepState st r
      if r.done || (execFilter r.commands).isEmpty then st2
      else agentLoop fuel rest st2

/-- `run_agent_loop`, reduced to its observable loop behaviour:
`max_iterations` is `agent_max_iterations` (default 10). -/
def run_agent_loop (max_iterations : Nat) (responses : List Resp) : AgentState :=
  agentLoop max_iterations responses ⟨0, 0, [], []⟩

/-- Default of `agent_max_iterations` (line 103). -/
def default_agent_max_iterations : Nat := 10

/-- `_execute_command` (lines 208–219): the exact string handed to
`create_subprocess_shell`, including the optional `sudo -u <run_as>`
prefix.  The subprocess side effects themselves are outside the model. -/
def shell_command (run_as : Option String) (cmd : String) : String :=
  match run_as with
  | some u => "sudo -u " ++ u ++ " " ++ cmd
  | none => cmd

/-! ## Data model (`models.py`)

`Event.raw` (an untyped dict) and the wall-clock timestamps are not read
by any embedded operation and are omitted; `confidence` (a Python float)
is modelled as `ℚ`. -/

inductive Severity where
  | P1 | P2 | P3 | P4
deriving DecidableEq, Repr

/-- The `str`-enum value of a severity. -/
def Severity.value : Severity → String
  | .P1 => "P1"
  | .P2 => "P2"
  | .P3 => "P3"
  | .P4 => "P4"

structure Event where
  event_id : String
  source : String
  event_type : String
  severity : Severity
  summary : String
  asset_ids : List String
  confidence : ℚ
deriving DecidableEq, Repr

structure Incident where
  incident_id : String
  severity : Severity
  title : String
  narrative : String
  events : List Event
  recommended_actions : List String
  actions_taken : List String
deriving DecidableEq, Repr

/-- `Incident.event_type_matches`: `typ in {e.event_type for e in self.events}`. -/
def Incident.event_type_matches (inc : Incident) (typ : String) : Bool :=
  inc.events.any (fun e => e.event_type == typ)

/-! ## Policy engine (`policy_engine.py`)

An action dict appended by `allowed_actions`, as a tagged variant. -/

inductive ActionSpec where
  | alert_only (reason : String)
  | stop_container (tier : Nat) (timeout_minutes : Nat)
  | block_ip_temporary (tier : Nat) (timeout_minutes : Nat)
deriving DecidableEq, Repr

/-- Engine configuration.  `max_tier` is the integer value of the
`ActionTier` enum (`action_tier_max` ∈ {0,1,2,3}).  A maintenance window
is `some (s, e)` when `w["start"]`/`w["end"]` are both present and
`dateutil` parses them into instants comparable with `datetime.utcnow()`
(timestamps modelled as `Int`); every other window — a missing bound, a
parse error, or a comparison error, all swallowed by the
`except Exception: pass` of `_in_maintenance_window` — is `none`. -/
structure PolicyEngine where
  max_tier : Nat
  maintenance_windows : List (Option (Int × Int))

/-- `PolicyEngine._in_maintenance_window` (lines 30–44). -/
def PolicyEngine.in_maintenance_window (pe : PolicyEngine) (now : Int) : Bool :=
  pe.maintenance_windows.any (fun w =>
    match w with
    | some (s, e) => decide (s ≤ now ∧ now ≤ e)
    | none => false)

/-- `PolicyEngine.allowed_actions` (lines 17–28). -/
def PolicyEngine.allowed_actions (pe : PolicyEngine) (now : Int) (inc : Incident) :
    List ActionSpec :=
  if pe.in_maintenance_window now then [ActionSpec.alert_only "maintenance_window"]
  else
    [ActionSpec.alert_only "always"] ++
      (if 1 ≤ pe.max_tier ∧ (inc.severity.value = "P1" ∨ inc.severity.value = "P2") then
        (if inc.event_type_matches "new_container" then [ActionSpec.stop_container 1 60] else [])
          ++
          (if inc.event_type_matches "auth_failures" then [ActionSpec.block_ip_temporary 1 30]
           else [])
      else [])

/-! ## Detector events

The dict returned by a detector `check`, as a structure.  The `event_id`
field is omitted: the source derives it from the process-dependent Python
`hash()` of the new-element set (e.g. `f"new-port-{hash(frozenset(new_ports)) % 2**32}"`).
The `raw` payload is a tagged variant, one tag per producing detector.
`asset_ids` is a `Finset` because the container detector builds it from a
set (`list(new_running)`, iteration order unspecified). -/

inductive Raw where
  | ports (new_ports current_ports : Finset String)
  | containers (new_ids : Finset String) (names : List String)
  | admins (new_users current_sudo : Finset String)
  | auth (count threshold window_sec : Nat)
  | driftNew (path hash : String)
  | driftChange (path old_hash new_hash : String)
  | driftDeleted (path : String)
deriving DecidableEq

structure DetEvent where
  source : String
  event_type : String
  severity : String
  summary : String
  raw : Raw
  asset_ids : Finset String
  confidence : ℚ
deriving DecidableEq

/-- The path a drift event is about, `none` for non-drift payloads. -/
def eventPath (ev : DetEvent) : Option String :=
  match ev.raw with
  | Raw.driftNew p _ => some p
  | Raw.driftChange p _ _ => some p
  | Raw.driftDeleted p => some p
  | _ => none

/-! ## Inventories and diff detectors (`detector/{ports,users,containers}.py`)

One entry of `host_inv["listening_ports"]`: `str(p.get("port", p.get("address", "")))`
falls back to the address and then to `""`; the values are modelled
post-`str()`. -/

structure PortInfo where
  port : Option String
  address : Option String
deriving DecidableEq

structure HostInv where
  listening_ports : List PortInfo
  users_with_sudo : List String
deriving DecidableEq

/-- `str(p.get("port", p.get("address", "")))`. -/
def portKey (p : PortInfo) : String := p.port.getD (p.address.getD "")

/-- The current-port set of `NewPortDetector.check` line 12 (also rebuilt by
`DetectorManager` lines 47, 57 and 140). -/
def currentPorts (inv : HostInv) : Finset String :=
  (inv.listening_ports.map portKey).toFinset

/-- `NewPortDetector.check` (`ports.py`, lines 11–27). -/
def NewPortDetector.check (host_inv : HostInv) (last_ports : Finset String) :
    Option DetEvent :=
  let current := currentPorts host_inv
  let new_ports := current \ last_ports
  if last_ports = ∅ then none
  else if new_ports ≠ ∅ then
    some
      { source := "detector.ports"
        event_type := "new_listening_port"
        severity := "P3"
        summary := "New listening port(s) detected: " ++
          String.intercalate ", " ((new_ports.sort (· ≤ ·)).take 10)
        raw := Raw.ports new_ports current
        asset_ids := {"host"}
        confidence := 1 }
  else none

/-- `NewAdminUserDetector.check` (`users.py`, lines 11–27). -/
def NewAdminUserDetector.check (host_inv : HostInv) (last_sudo_users : Finset String) :
    Option DetEvent :=
  let current := host_inv.users_with_sudo.toFinset
  let new_admins := current \ last_sudo_users
  if last_sudo_users = ∅ then none
  else if new_admins ≠ ∅ then
    some
      { source := "detector.users"
        event_type := "new_admin_user"
        severity := "P2"
        summary := "New admin (sudo) user(s) detected: " ++
          String.intercalate ", " (new_admins.sort (· ≤ ·))
        raw := Raw.admins new_admins current
        asset_ids := {"host"}
        confidence := 1 }
  else none

/-- One entry of `docker_inv["containers"]`: `c.get("id", "")` defaults to
`""` (modelled as the plain field), `c.get("name", c.get("id", ""))`
falls back to the id. -/
structure ContainerInfo where
  id : String
  status : String
  name : Option String
deriving DecidableEq

structure DockerInv where
  available : Bool
  containers : List ContainerInfo
deriving DecidableEq

/-- `running_now` of `containers.py` line 15. -/
def runningIds (inv : DockerInv) : Finset String :=
  ((inv.containers.filter (fun c => c.status == "running")).map (fun c => c.id)).toFinset

/-- The id set of all listed containers, running or not — what
`DetectorManager` stores as `_last_containers` (lines 51, 58 and 146). -/
def allContainerIds (inv : DockerInv) : Finset String :=
  (inv.containers.map (fun c => c.id)).toFinset

/-- `NewContainerDetector.check` (`containers.py`, lines 11–31). -/
def NewContainerDetector.check (docker_inv : DockerInv) (last_container_ids : Finset String) :
    Option DetEvent :=
  if !docker_inv.available then none
  else
    let new_running := runningIds docker_inv \ last_container_ids
    if last_container_ids = ∅ then none
    else if new_running ≠ ∅ then
      let names := (docker_inv.containers.filter (fun c => decide (c.id ∈ new_running))).map
        (fun c => c.name.getD c.id)
      some
        { source := "detector.containers"
          event_type := "new_container"
          severity := "P3"
          summary := "New container(s) started: " ++ String.intercalate ", " (names.take 5)
          raw := Raw.containers new_running names
          asset_ids := new_running
          confidence := 1 }
    else none

/-- The container section of `DetectorManager.run_detectors` (`manager.py`,
lines 141–146): when docker is available, run the detector against the
stored set and then overwrite the stored set with the ids of all current
containers.  Returns the produced event (if any) and the new stored set. -/
def run_container_step (docker_inv : DockerInv) (last : Finset String) :
    Option DetEvent × Finset String :=
  if docker_inv.available then
    (NewContainerDetector.check docker_inv last, allContainerIds docker_inv)
  else (none, last)

/-! ## Drift monitor (`collector/drift.py`) -/

/-- State of one critical path on disk, as observed by `_compute_hashes`:
readable with a SHA-256 hex digest, existing but raising
`PermissionError`/`OSError` on read, or absent. -/
inductive FileState where
  | readable (hash : String)
  | unreadable
  | absent
deriving DecidableEq

/-- Association-list lookup, the model of `dict.get` for string-keyed
dicts (which are modelled as key-value lists with distinct keys). -/
def dlookup (p : String) : List (String × String) → Option String
  | [] => none
  | (q, h) :: t => if q = p then some h else dlookup p t

/-- `DriftMonitor._compute_hashes` (lines 40–67), for plain-file entries of
the critical list: absent paths fail `p.is_file()` and unreadable ones hit
the `except (OSError, PermissionError): pass`, so both are skipped.  The
directory and glob branches expand to plain files and skip unreadable
files the same way; the expansion itself is filesystem traversal and is
modelled by listing the resolved paths in `critical` directly. -/
def DriftMonitor.compute_hashes (critical : List String) (fs : String → FileState) :
    List (String × String) :=
  critical.filterMap (fun p =>
    match fs p with
    | FileState.readable h => some (p, h)
    | _ => none)

/-- The `config_new_file` event dict (lines 81–92). -/
def driftNewEvent (path hash : String) : DetEvent :=
  { source := "drift"
    event_type := "config_new_file"
    severity := "P3"
    summary := "New critical file: " ++ path
    raw := Raw.driftNew path hash
    asset_ids := {"host"}
    confidence := 1 }

/-- The `config_drift` event dict (lines 94–105). -/
def driftChangeEvent (path old_hash new_hash : String) : DetEvent :=
  { source := "drift"
    event_type := "config_drift"
    severity := "P2"
    summary := "Critical file changed: " ++ path
    raw := Raw.driftChange path old_hash new_hash
    asset_ids := {"host"}
    confidence := 1 }

/-- The `config_deleted` event dict (lines 108–119). -/
def driftDeletedEvent (path : String) : DetEvent :=
  { source := "drift"
    event_type := "config_deleted"
    severity := "P2"
    summary := "Critical file removed: " ++ path
    raw := Raw.driftDeleted path
    asset_ids := {"host"}
    confidence := 1 }

/-- The comparison loops of `DriftMonitor.check` (lines 77–120): one pass
over the current hashes emitting `config_new_file`/`config_drift`, then one
pass over the baseline emitting `config_deleted` for vanished keys. -/
def drift_events (baseline current : List (String × String)) : List DetEvent :=
  (current.filterMap (fun x =>
    match dlookup x.1 baseline with
    | none => some (driftNewEvent x.1 x.2)
    | some old_hash =>
        if old_hash ≠ x.2 then some (driftChangeEvent x.1 old_hash x.2) else none))
    ++
    (baseline.filterMap (fun x =>
      if (dlookup x.1 current).isSome then none else some (driftDeletedEvent x.1)))

/-- Persistent drift state: the in-memory `_baseline` dict (`[]` is the
falsy empty dict) and the baseline file (`none` when
`_baseline_path.exists()` is false). -/
structure DriftState where
  baseline : List (String × String)
  file : Option (List (String × String))
deriving DecidableEq

/-- `DriftMonitor.check` (lines 69–120) including the bootstrap logic:
load the baseline file if the in-memory baseline is empty (line 70,
`ensure_baseline`); if the baseline is still empty, build it from the
current hashes, persist it and return no events (lines 72–74,
`_build_baseline`); otherwise diff the baseline against the current
hashes. -/
def DriftMonitor.check (critical : List String) (fs : String → FileState)
    (st : DriftState) : DriftState × List DetEvent :=
  let st1 :=
    if st.baseline.isEmpty then
      match st.file with
      | some b => { st with baseline := b }
      | none => st
    else st
  if st1.baseline.isEmpty then
    let b := DriftMonitor.compute_hashes critical fs
    ({ baseline := b, file := some b }, [])
  else
    (st1, drift_events st1.baseline (DriftMonitor.compute_hashes critical fs))

/-! ## Auth-failure detector (`detector/auth.py`) -/

/-- Unanchored substring search: `needle` occurs contiguously in `hay`
(the semantics of `re.search` for a literal alternative). -/
def containsSub : List Char → List Char → Bool
  | n, [] => n.isEmpty
  | n, c :: rest => n.isPrefixOf (c :: rest) || containsSub n rest

/-- The compiled pattern of line 19, `re.I`: a line matches when it
contains one of the three phrases, case-insensitively. -/
def lineMatchesAuth (line : String) : Bool :=
  ["Failed password", "Invalid user", "authentication failure"].any
    (fun pat => containsSub (pat.data.map Char.toLower) (line.data.map Char.toLower))

/-- The fixed `_log_paths` list (line 18). -/
def auth_log_paths : List String := ["/var/log/auth.log", "/var/log/secure"]

/-- State of one log path: missing (`p.exists()` false), raising
`OSError`/`PermissionError` on open or read, or readable with its lines. -/
inductive LogFile where
  | absent
  | unreadable
  | readable (lines : List String)
deriving DecidableEq

/-- `AuthFailureDetector._count_recent_failures` (lines 37–50): skip
absent and unreadable paths; on the first readable file, keep every line
matching the pattern and return `len(matched[-500:])`, then break. -/
def count_recent_failures : List LogFile → Nat
  | [] => 0
  | LogFile.absent :: rest => count_recent_failures rest
  | LogFile.unreadable :: rest => count_recent_failures rest
  | LogFile.readable lines :: _ =>
      let matched := lines.filter lineMatchesAuth
      (matched.drop (matched.length - 500)).length

/-- The `auth_failures` event dict (lines 25–34). -/
def authEvent (count threshold window_sec : Nat) : DetEvent :=
  { source := "detector.auth"
    event_type := "auth_failures"
    severity := "P2"
    summary := "Repeated auth failures detected: " ++ toString count ++
      " in last " ++ toString window_sec ++ "s"
    raw := Raw.auth count threshold window_sec
    asset_ids := {"host"}
    confidence := min 1 ((count : ℚ) / ((max (threshold * 2) 1 : ℕ) : ℚ)) }

/-- `AuthFailureDetector.check` (lines 21–35); `threshold` is
`detector.auth_failure_threshold` (default 5), `window_sec` is
`auth_failure_window_sec` (default 300, reported but never used for
filtering). -/
def AuthFailureDetector.check (threshold window_sec : Nat) (files : List LogFile) :
    Option DetEvent :=
  let count := count_recent_failures files
  if threshold ≤ count then some (authEvent count threshold window_sec) else none

/-- Modelled from the spec: the count the specification describes —
matching lines *within the last 500 lines* of the file — which is absent
from `src` (`_count_recent_failures` instead truncates the list of
matching lines).  Used to compare the two counting disciplines. -/
def auth_count_spec (lines : List String) : Nat :=
  ((lines.drop (lines.length - 500)).filter lineMatchesAuth).length

/-! ## Agent-loop safety and termination -/

lemma mem_execFilter_allowed {cmds : List String} {c : String}
    (hc : c ∈ execFilter cmds) : is_command_allowed c = true := by
  have := List.of_mem_filter hc
  simp only [Bool.and_eq_true] at this
  exact this.2

lemma agentLoop_allowed (fuel : Nat) (rs : List Resp) (st : AgentState)
    (hex : ∀ c ∈ st.executed_cmds, is_command_allowed c = true)
    (hat : ∀ c ∈ st.actions_taken, is_command_allowed c = true) :
    (∀ c ∈ (agentLoop fuel rs st).executed_cmds, is_command_allowed c = true) ∧
      (∀ c ∈ (agentLoop fuel rs st).actions_taken, is_command_allowed c = true) := by
  induction fuel generalizing rs st with
  | zero => exact ⟨hex, hat⟩
  | succ n ih =>
    cases rs with
    | nil => exact ⟨hex, hat⟩
    | cons r rest =>
      have hex2 : ∀ c ∈ (stepState st r).executed_cmds, is_command_allowed c = true := by
        intro c hc
        simp only [stepState, List.mem_append] at hc
        rcases hc with h | h
        · exact hex c h
        · exact mem_execFilter_allowed h
      have hat2 : ∀ c ∈ (stepState st r).actions_taken, is_command_allowed c = true := by
        intro c hc
        simp only [stepState, List.mem_append] at hc
        rcases hc with h | h
        · exact hat c h
        · exact mem_execFilter_allowed h
      by_cases h : (r.done || (execFilter r.commands).isEmpty) = true
      · simpa [agentLoop, h] using ⟨hex2, hat2⟩
      · simpa [agentLoop, h] using ih rest (stepState st r) hex2 hat2

/-- Claim C1: in every run of the agent loop (the mode only selects prompt
and model) and for every sequence of model responses, every command string
passed to `_execute_command` — recorded in `executed_cmds` — satisfies
`is_command_allowed`, as does every entry of `actions_taken`; a suggested
command failing the whitelist never reaches either list. -/
theorem agent_whitelist_totality (m : Nat) (rs : List Resp) :
    (∀ cmd ∈ (run_agent_loop m rs).executed_cmds, is_command_allowed cmd = true) ∧
      (∀ cmd ∈ (run_agent_loop m rs).actions_taken, is_command_allowed cmd = true) ∧
      (∀ cmd, is_command_allowed cmd = false →
        cmd ∉ (run_agent_loop m rs).executed_cmds ∧
          cmd ∉ (run_agent_loop m rs).actions_taken) := by
  obtain ⟨h1, h2⟩ := agentLoop_allowed m rs ⟨0, 0, [], []⟩ (by simp) (by simp)
  refine ⟨h1, h2, fun cmd hbad => ⟨fun hmem => ?_, fun hmem => ?_⟩⟩
  · exact absurd (h1 cmd hmem) (by simp [hbad])
  · exact absurd (h2 cmd hmem) (by simp [hbad])

/-- Witness for C1: scenario S5 — of the suggested `rm -rf /` and
`ss -tln`, only the whitelisted one is executed. -/
theorem agent_whitelist_totality_witness :
    is_command_allowed "ss -tln" = true :=
  (agent_whitelist_totality 10 [⟨["rm -rf /", "ss -tln"], true⟩]).1 "ss -tln" (by decide)

lemma agentLoop_iteration_le (fuel : Nat) (rs : List Resp) (st : AgentState) :
    (agentLoop fuel rs st).iteration ≤ st.iteration + fuel := by
  induction fuel generalizing rs st with
  | zero =>
    show st.iteration ≤ st.iteration + 0
    omega
  | succ n ih =>
    cases rs with
    | nil =>
      show st.iteration + 1 ≤ st.iteration + (n + 1)
      omega
    | cons r rest =>
      by_cases h : (r.done || (execFilter r.commands).isEmpty) = true
      · rw [show agentLoop (n + 1) (r :: rest) st = stepState st r from by
          simp [agentLoop, h]]
        show st.iteration + 1 ≤ st.iteration + (n + 1)
        omega
      · have hcond : (r.done || (execFilter r.commands).isEmpty) = false := by
          simpa using h
        rw [show agentLoop (n + 1) (r :: rest) st = agentLoop n rest (stepState st r) from by
          simp [agentLoop, hcond]]
        have hrec := ih rest (stepState st r)
        have hstep : (stepState st r).iteration = st.iteration + 1 := rfl
        omega

/-- Claim C2: for every iteration budget and every response sequence the
loop performs at most `agent_max_iterations` iterations (default 10), and
it stops at the current iteration — never looking at later responses — as
soon as the response sets `done` or the iteration executed zero commands. -/
theorem agent_loop_bounded :
    (∀ (m : Nat) (rs : List Resp), (run_agent_loop m rs).iteration ≤ m) ∧
      (∀ (fuel : Nat) (r : Resp) (rest : List Resp) (st : AgentState),
        r.done = true ∨ execFilter r.commands = [] →
          agentLoop (fuel + 1) (r :: rest) st = stepState st r) ∧
      default_agent_max_iterations = 10 := by
  refine ⟨fun m rs => ?_, fun fuel r rest st h => ?_, rfl⟩
  · simpa using agentLoop_iteration_le m rs ⟨0, 0, [], []⟩
  · have hcond : (r.done || (execFilter r.commands).isEmpty) = true := by
      rcases h with h | h <;> simp [h]
    simp [agentLoop, hcond]

/-- Witness for C2: a first response with `done: true` ends the run after
one iteration even though further responses are queued. -/
theorem agent_loop_bounded_witness :
    agentLoop 3 [⟨[], true⟩, ⟨["ss -tln"], false⟩] ⟨0, 0, [], []⟩ =
      stepState ⟨0, 0, [], []⟩ ⟨[], true⟩ :=
  agent_loop_bounded.2.1 2 ⟨[], true⟩ [⟨["ss -tln"], false⟩] ⟨0, 0, [], []⟩ (Or.inl rfl)

/-! ## Bootstrap suppression of the diff detectors -/

/-- Claim C6: every diff detector returns no event when the prior stored
set is empty, whatever the current inventory contains. -/
theorem diff_detectors_bootstrap (host_inv : HostInv) (docker_inv : DockerInv) :
    NewPortDetector.check host_inv ∅ = none ∧
      NewAdminUserDetector.check host_inv ∅ = none ∧
      NewContainerDetector.check docker_inv ∅ = none := by
  refine ⟨by simp [NewPortDetector.check], by simp [NewAdminUserDetector.check], ?_⟩
  cases h : docker_inv.available <;> simp [NewContainerDetector.check, h]

/-! ## Policy-engine properties -/

/-- Claim C4: whenever the current instant lies inside any configured
maintenance window, `allowed_actions` returns exactly the singleton
`alert_only / maintenance_window`, for every incident. -/
theorem maintenance_window_exclusivity (pe : PolicyEngine) (now : Int) (inc : Incident)
    (s e : Int) (hmem : some (s, e) ∈ pe.maintenance_windows)
    (hs : s ≤ now) (he : now ≤ e) :
    pe.allowed_actions now inc = [ActionSpec.alert_only "maintenance_window"] := by
  have hin : pe.in_maintenance_window now = true := by
    unfold PolicyEngine.in_maintenance_window
    rw [List.any_eq_true]
    exact ⟨some (s, e), hmem, by simp [hs, he]⟩
  simp [PolicyEngine.allowed_actions, hin]

/-- A P2 `new_container` incident, as in scenario S3 of the spec. -/
def incS3 : Incident :=
  { incident_id := "inc-s3"
    severity := Severity.P2
    title := "New container(s) started: mallory"
    narrative := "New container(s) started: mallory"
    events := [{ event_id := "ev1", source := "detector.containers",
                 event_type := "new_container", severity := Severity.P3,
                 summary := "New container(s) started: mallory",
                 asset_ids := ["host"], confidence := 1 }]
    recommended_actions := ["Confirm new container is expected; stop if not."]
    actions_taken := [] }

/-- Witness for C4: scenario S4 — a window `[0, 10]` around instant `5`
forces the singleton answer on the S3 incident. -/
theorem maintenance_window_exclusivity_witness :
    PolicyEngine.allowed_actions ⟨1, [some (0, 10)]⟩ 5 incS3 =
      [ActionSpec.alert_only "maintenance_window"] :=
  maintenance_window_exclusivity ⟨1, [some (0, 10)]⟩ 5 incS3 0 10 (by simp)
    (by norm_num) (by norm_num)

/-- Claim C5: with no active maintenance window the action list starts
with `alert_only / always`, and — exactly when `action_tier_max ≥ 1` and
the incident severity is P1 or P2 — appends `stop_container(tier 1, 60
min)` for incidents matching `new_container` and then
`block_ip_temporary(tier 1, 30 min)` for incidents matching
`auth_failures`, in that order, with no other action. -/
theorem allowed_actions_no_window (pe : PolicyEngine) (now : Int) (inc : Incident)
    (h : pe.in_maintenance_window now = false) :
    pe.allowed_actions now inc =
      ActionSpec.alert_only "always" ::
        (if 1 ≤ pe.max_tier ∧ (inc.severity = Severity.P1 ∨ inc.severity = Severity.P2) then
          (if inc.event_type_matches "new_container" then [ActionSpec.stop_container 1 60]
           else []) ++
            (if inc.event_type_matches "auth_failures" then [ActionSpec.block_ip_temporary 1 30]
             else [])
        else []) := by
  cases hsev : inc.severity <;>
    simp [PolicyEngine.allowed_actions, h, Severity.value, hsev]

/-- Witness for C5: scenario S3 — tier 1, no window, P2 `new_container`
incident yields `[alert_only(always), stop_container{tier 1, 60}]`. -/
theorem allowed_actions_no_window_witness :
    PolicyEngine.allowed_actions ⟨1, []⟩ 0 incS3 =
      [ActionSpec.alert_only "always", ActionSpec.stop_container 1 60] := by
  rw [allowed_actions_no_window ⟨1, []⟩ 0 incS3 (by decide)]
  decide

/-! ## The container diff state -/

/-- Day 1: container `a` exists but is stopped, `b` is running. -/
def dockerInvDay1 : DockerInv :=
  ⟨true, [⟨"a", "exited", some "app"⟩, ⟨"b", "running", some "db"⟩]⟩

/-- Day 2: the previously stopped container `a` has been started. -/
def dockerInvDay2 : DockerInv :=
  ⟨true, [⟨"a", "running", some "app"⟩, ⟨"b", "running", some "db"⟩]⟩

/-- Counterexample to claim C7: the stored `last_containers` set is built
from *all* listed containers (`manager.py` line 146), not only the running
ones.  After observing day 1, the stored set contains the stopped
container `a`; consequently, when `a` starts on day 2 the detector reports
nothing, whereas against the running-only prior set the claim describes it
would have produced an event. -/
theorem container_prior_set_counterexample :
    ("a" ∈ (run_container_step dockerInvDay1 ∅).2 ∧ "a" ∉ runningIds dockerInvDay1) ∧
      (run_container_step dockerInvDay1 ∅).2 ≠ runningIds dockerInvDay1 ∧
      (run_container_step dockerInvDay2 ((run_container_step dockerInvDay1 ∅).2)).1 = none ∧
      (NewContainerDetector.check dockerInvDay2 (runningIds dockerInvDay1)).isSome = true := by
  decide

/-- Claim C7 (amended): the stored prior set contains the ids of *all*
containers listed at the previous observation (running or not); the
event reports as new exactly the currently running ids absent from that
prior set; and after each run the orchestrator overwrites the stored set
with the ids of all current containers. -/
theorem container_detector_amended (inv : DockerInv) (last : Finset String)
    (hav : inv.available = true) :
    (run_container_step inv last).2 = allContainerIds inv ∧
      ((NewContainerDetector.check inv last).isSome ↔
        last ≠ ∅ ∧ runningIds inv \ last ≠ ∅) ∧
      (∀ ev, NewContainerDetector.check inv last = some ev →
        ev.event_type = "new_container" ∧ ev.severity = "P3" ∧
          ∃ names, ev.raw = Raw.containers (runningIds inv \ last) names) := by
  refine ⟨by simp [run_container_step, hav], ?_, ?_⟩
  · by_cases hl : last = ∅
    · simp [NewContainerDetector.check, hav, hl]
    · by_cases hn : runningIds inv \ last = ∅
      · simp [NewContainerDetector.check, hav, hl, hn]
      · simp [NewContainerDetector.check, hav, hl, hn]
  · intro ev hev
    by_cases hl : last = ∅
    · simp [NewContainerDetector.check, hav, hl] at hev
    · by_cases hn : runningIds inv \ last = ∅
      · simp [NewContainerDetector.check, hav, hl, hn] at hev
      · simp [NewContainerDetector.check, hav, hl, hn] at hev
        subst hev
        exact ⟨rfl, rfl, _, rfl⟩

/-- Witness for the amended C7: against the prior set `{"b"}`, day 2
produces a `new_container` event and stores both current ids. -/
theorem container_detector_amended_witness :
    (run_container_step dockerInvDay2 {"b"}).2 = allContainerIds dockerInvDay2 ∧
      ∃ ev, NewContainerDetector.check dockerInvDay2 {"b"} = some ev ∧
        ev.event_type = "new_container" := by
  have h := container_detector_amended dockerInvDay2 {"b"} (by decide)
  have hsome : (NewContainerDetector.check dockerInvDay2 {"b"}).isSome :=
    h.2.1.mpr (by decide)
  obtain ⟨ev, hev⟩ := Option.isSome_iff_exists.mp hsome
  exact ⟨h.1, ev, hev, (h.2.2 ev hev).1⟩

/-! ## Drift-monitor properties

The per-item decision of the first comparison loop of `DriftMonitor.check`
(lines 78–105), as a named function of the key and current hash. -/

def driftCurFn (baseline : List (String × String)) (q v : String) : Option DetEvent :=
  match dlookup q baseline with
  | none => some (driftNewEvent q v)
  | some old_hash => if old_hash ≠ v then some (driftChangeEvent q old_hash v) else none

/-- The per-item decision of the second loop (lines 106–119). -/
def driftBaseFn (current : List (String × String)) (q _v : String) : Option DetEvent :=
  if (dlookup q current).isSome then none else some (driftDeletedEvent q)

lemma drift_events_eq (baseline current : List (String × String)) :
    drift_events baseline current =
      current.filterMap (fun x => driftCurFn baseline x.1 x.2) ++
        baseline.filterMap (fun x => driftBaseFn current x.1 x.2) := rfl

lemma dlookup_eq_none_of_keys (p : String) (l : List (String × String))
    (h : ∀ x ∈ l, x.1 ≠ p) : dlookup p l = none := by
  induction l with
  | nil => rfl
  | cons x t ih =>
    obtain ⟨q, v⟩ := x
    have hq : q ≠ p := h (q, v) (List.mem_cons_self _ _)
    simp only [dlookup, if_neg hq]
    exact ih (fun y hy => h y (List.mem_cons_of_mem _ hy))

/-- Filtering the events produced by one keyed pass down to one path `p`
leaves exactly the event that the pass decision produces at `p` — the
dict keys are distinct, so at most one iteration concerns `p`. -/
lemma filterMap_keyed_filter (f : String → String → Option DetEvent)
    (hf : ∀ q v ev, f q v = some ev → eventPath ev = some q) (p : String)
    (l : List (String × String)) (hnd : (l.map Prod.fst).Nodup) :
    (l.filterMap (fun x => f x.1 x.2)).filter (fun ev => decide (eventPath ev = some p))
      = (match dlookup p l with
         | some v => (f p v).toList
         | none => []) := by
  induction l with
  | nil => simp [dlookup]
  | cons x t ih =>
    obtain ⟨q, v⟩ := x
    rw [List.map_cons, List.nodup_cons] at hnd
    obtain ⟨hq, hnd'⟩ := hnd
    by_cases hqp : q = p
    · subst hqp
      have hket : dlookup q t = none := by
        refine dlookup_eq_none_of_keys q t (fun y hy hyq => hq ?_)
        exact List.mem_map.mpr ⟨y, hy, hyq⟩
      cases hf2 : f q v with
      | none =>
        simp only [List.filterMap_cons, hf2]
        rw [ih hnd', hket]
        simp [dlookup, hf2]
      | some ev =>
        have hpath : eventPath ev = some q := hf _ _ _ hf2
        simp only [List.filterMap_cons, hf2, List.filter_cons]
        rw [if_pos (by simp [hpath])]
        rw [ih hnd', hket]
        simp [dlookup, hf2]
    · cases hf2 : f q v with
      | none =>
        simp only [List.filterMap_cons, hf2]
        rw [ih hnd']
        simp [dlookup, hqp]
      | some ev =>
        have hpath : eventPath ev = some q := hf _ _ _ hf2
        simp only [List.filterMap_cons, hf2, List.filter_cons]
        rw [if_neg (by simp [hpath, hqp])]
        rw [ih hnd']
        simp [dlookup, hqp]

/-- A keyed pass over a list whose keys all differ from `p` contributes no
event about `p` (no distinct-key assumption needed). -/
lemma filterMap_keyed_filter_nil (f : String → String → Option DetEvent)
    (hf : ∀ q v ev, f q v = some ev → eventPath ev = some q) (p : String)
    (l : List (String × String)) (hl : ∀ x ∈ l, x.1 ≠ p) :
    (l.filterMap (fun x => f x.1 x.2)).filter (fun ev => decide (eventPath ev = some p))
      = [] := by
  rw [List.filter_eq_nil_iff]
  intro ev hev
  obtain ⟨x, hx, hfx⟩ := List.mem_filterMap.mp hev
  have hpath := hf _ _ _ hfx
  simp only [hpath, decide_eq_true_eq, Option.some.injEq]
  exact hl x hx

lemma driftCurFn_path (b : List (String × String)) :
    ∀ q v ev, driftCurFn b q v = some ev → eventPath ev = some q := by
  intro q v ev h
  unfold driftCurFn at h
  split at h
  · cases h; rfl
  · split at h
    · cases h; rfl
    · cases h

lemma driftBaseFn_path (cur : List (String × String)) :
    ∀ q v ev, driftBaseFn cur q v = some ev → eventPath ev = some q := by
  intro q v ev h
  unfold driftBaseFn at h
  split at h
  · cases h
  · cases h; rfl

/-- Claim C8: with a nonempty baseline, `check()` diffs and returns, for
each path, exactly one `config_new_file` (P3) event when the path is
hashed now but absent from the baseline, exactly one `config_drift` (P2)
event carrying the old and new hashes when both hashes exist and differ,
no event when the hashes agree, and exactly one `config_deleted` (P2)
event for a baseline path that is absent now; with an empty baseline and
no baseline file, `check()` builds the baseline from the current hashes,
persists it and returns no events. -/
theorem drift_check_characterization (critical : List String) (fs : String → FileState)
    (file : Option (List (String × String))) (b cur : List (String × String))
    (hb : (b.map Prod.fst).Nodup) (hc : (cur.map Prod.fst).Nodup) (hbne : b ≠ []) :
    (DriftMonitor.check critical fs ⟨b, file⟩
        = (⟨b, file⟩, drift_events b (DriftMonitor.compute_hashes critical fs))) ∧
      (∀ p nh, dlookup p cur = some nh → dlookup p b = none →
        (drift_events b cur).filter (fun ev => decide (eventPath ev = some p))
            = [driftNewEvent p nh] ∧
          (driftNewEvent p nh).event_type = "config_new_file" ∧
          (driftNewEvent p nh).severity = "P3") ∧
      (∀ p oh nh, dlookup p cur = some nh → dlookup p b = some oh → oh ≠ nh →
        (drift_events b cur).filter (fun ev => decide (eventPath ev = some p))
            = [driftChangeEvent p oh nh] ∧
          (driftChangeEvent p oh nh).event_type = "config_drift" ∧
          (driftChangeEvent p oh nh).severity = "P2" ∧
          (driftChangeEvent p oh nh).raw = Raw.driftChange p oh nh) ∧
      (∀ p h, dlookup p cur = some h → dlookup p b = some h →
        (drift_events b cur).filter (fun ev => decide (eventPath ev = some p)) = []) ∧
      (∀ p oh, dlookup p b = some oh → dlookup p cur = none →
        (drift_events b cur).filter (fun ev => decide (eventPath ev = some p))
            = [driftDeletedEvent p] ∧
          (driftDeletedEvent p).event_type = "config_deleted" ∧
          (driftDeletedEvent p).severity = "P2") ∧
      (DriftMonitor.check critical fs ⟨[], none⟩
        = (⟨DriftMonitor.compute_hashes critical fs,
            some (DriftMonitor.compute_hashes critical fs)⟩, [])) := by
  have hbe : b.isEmpty = false := by
    cases b with
    | nil => exact absurd rfl hbne
    | cons x t => rfl
  have hsplit : ∀ p : String,
      (drift_events b cur).filter (fun ev => decide (eventPath ev = some p))
        = ((cur.filterMap (fun x => driftCurFn b x.1 x.2)).filter
            (fun ev => decide (eventPath ev = some p)))
          ++ ((b.filterMap (fun x => driftBaseFn cur x.1 x.2)).filter
            (fun ev => decide (eventPath ev = some p))) := by
    intro p
    rw [drift_events_eq, List.filter_append]
  refine ⟨by simp [DriftMonitor.check, hbe], ?_, ?_, ?_, ?_, by simp [DriftMonitor.check]⟩
  · intro p nh hcur hbase
    rw [hsplit p,
      filterMap_keyed_filter (driftCurFn b) (driftCurFn_path b) p cur hc,
      filterMap_keyed_filter (driftBaseFn cur) (driftBaseFn_path cur) p b hb,
      hcur, hbase]
    refine ⟨?_, rfl, rfl⟩
    simp [driftCurFn, driftBaseFn, hbase]
  · intro p oh nh hcur hbase hne
    rw [hsplit p,
      filterMap_keyed_filter (driftCurFn b) (driftCurFn_path b) p cur hc,
      filterMap_keyed_filter (driftBaseFn cur) (driftBaseFn_path cur) p b hb,
      hcur, hbase]
    refine ⟨?_, rfl, rfl, rfl⟩
    simp [driftCurFn, driftBaseFn, hbase, hcur, hne]
  · intro p h hcur hbase
    rw [hsplit p,
      filterMap_keyed_filter (driftCurFn b) (driftCurFn_path b) p cur hc,
      filterMap_keyed_filter (driftBaseFn cur) (driftBaseFn_path cur) p b hb,
      hcur, hbase]
    simp [driftCurFn, driftBaseFn, hbase, hcur]
  · intro p oh hbase hcur
    rw [hsplit p,
      filterMap_keyed_filter (driftCurFn b) (driftCurFn_path b) p cur hc,
      filterMap_keyed_filter (driftBaseFn cur) (driftBaseFn_path cur) p b hb,
      hcur, hbase]
    refine ⟨?_, rfl, rfl⟩
    simp [driftBaseFn, hcur]

/-- Witness for C8: a three-path baseline against a current state with one
changed, one deleted, one unchanged and one new file — scenario S1 plus
the other three comparison outcomes — and the bootstrap branch. -/
theorem drift_check_characterization_witness :
    ((drift_events [("a", "1"), ("b", "2"), ("c", "3")] [("a", "1"), ("b", "9"), ("d", "4")]).filter
        (fun ev => decide (eventPath ev = some "d")) = [driftNewEvent "d" "4"]) ∧
      ((drift_events [("a", "1"), ("b", "2"), ("c", "3")] [("a", "1"), ("b", "9"), ("d", "4")]).filter
        (fun ev => decide (eventPath ev = some "b")) = [driftChangeEvent "b" "2" "9"]) ∧
      ((drift_events [("a", "1"), ("b", "2"), ("c", "3")] [("a", "1"), ("b", "9"), ("d", "4")]).filter
        (fun ev => decide (eventPath ev = some "a")) = []) ∧
      ((drift_events [("a", "1"), ("b", "2"), ("c", "3")] [("a", "1"), ("b", "9"), ("d", "4")]).filter
        (fun ev => decide (eventPath ev = some "c")) = [driftDeletedEvent "c"]) ∧
      DriftMonitor.check ["x"] (fun _ => FileState.readable "hx") ⟨[], none⟩
        = (⟨[("x", "hx")], some [("x", "hx")]⟩, []) := by
  have h := drift_check_characterization ["x"] (fun _ => FileState.readable "hx") none
    [("a", "1"), ("b", "2"), ("c", "3")] [("a", "1"), ("b", "9"), ("d", "4")]
    (by decide) (by decide) (by decide)
  exact ⟨(h.2.1 "d" "4" (by decide) (by decide)).1,
    (h.2.2.1 "b" "2" "9" (by decide) (by decide) (by decide)).1,
    h.2.2.2.1 "a" "1" (by decide) (by decide),
    (h.2.2.2.2.1 "c" "3" (by decide) (by decide)).1,
    h.2.2.2.2.2.trans (by decide)⟩

/-- Counterexample to claim C9: a baseline path that still exists but has
become unreadable is skipped by `_compute_hashes`, so the comparison in
`check()` treats it as missing and *does* emit a `config_deleted` event
for it — the claim says no event is produced for such a path. -/
theorem drift_unreadable_counterexample :
    drift_events [("/etc/passwd", "h1")]
        (DriftMonitor.compute_hashes ["/etc/passwd"] (fun _ => FileState.unreadable))
      = [driftDeletedEvent "/etc/passwd"] ∧
      (driftDeletedEvent "/etc/passwd").event_type = "config_deleted" ∧
      (driftDeletedEvent "/etc/passwd").severity = "P2" := by
  decide

/-- Claim C9 (amended): a path that raises a permission error while being
hashed is silently skipped by `_compute_hashes` — it contributes no hash,
no `config_new_file` and no `config_drift` event, and no dedicated error
event exists — but if the path is recorded in the baseline, its absence
from the current hashes makes `check()` report it as `config_deleted`;
the only event ever produced for an unreadable path is that one. -/
theorem drift_unreadable_amended (critical : List String) (fs : String → FileState)
    (p : String) (b : List (String × String)) (hp : fs p = FileState.unreadable)
    (hb : (b.map Prod.fst).Nodup) :
    dlookup p (DriftMonitor.compute_hashes critical fs) = none ∧
      (drift_events b (DriftMonitor.compute_hashes critical fs)).filter
          (fun ev => decide (eventPath ev = some p))
        = (match dlookup p b with
           | some _ => [driftDeletedEvent p]
           | none => []) := by
  have hkeys : ∀ x ∈ DriftMonitor.compute_hashes critical fs, x.1 ≠ p := by
    intro x hx hxp
    obtain ⟨a, _, hfa⟩ := List.mem_filterMap.mp hx
    cases hfs : fs a with
    | readable hsh =>
      rw [hfs] at hfa
      cases hfa
      simp only [] at hxp
      rw [hxp] at hfs
      rw [hfs] at hp
      cases hp
    | unreadable => rw [hfs] at hfa; cases hfa
    | absent => rw [hfs] at hfa; cases hfa
  have hnone : dlookup p (DriftMonitor.compute_hashes critical fs) = none :=
    dlookup_eq_none_of_keys p _ hkeys
  refine ⟨hnone, ?_⟩
  rw [drift_events_eq, List.filter_append,
    filterMap_keyed_filter_nil (driftCurFn b) (driftCurFn_path b) p _ hkeys,
    filterMap_keyed_filter (driftBaseFn (DriftMonitor.compute_hashes critical fs))
      (driftBaseFn_path _) p b hb]
  cases hlb : dlookup p b with
  | none => simp
  | some oh => simp [driftBaseFn, hnone]

/-- Witness for the amended C9: `/etc/passwd` is in the baseline and
unreadable now; the filtered event list is exactly the `config_deleted`
event, and the path contributes no current hash. -/
theorem drift_unreadable_amended_witness :
    dlookup "/etc/passwd"
        (DriftMonitor.compute_hashes ["/etc/passwd", "/etc/hosts"]
          (fun q => if q = "/etc/hosts" then FileState.readable "h2"
                    else FileState.unreadable)) = none ∧
      (drift_events [("/etc/passwd", "h1"), ("/etc/hosts", "h2")]
          (DriftMonitor.compute_hashes ["/etc/passwd", "/etc/hosts"]
            (fun q => if q = "/etc/hosts" then FileState.readable "h2"
                      else FileState.unreadable))).filter
          (fun ev => decide (eventPath ev = some "/etc/passwd"))
        = [driftDeletedEvent "/etc/passwd"] := by
  have h := drift_unreadable_amended ["/etc/passwd", "/etc/hosts"]
    (fun q => if q = "/etc/hosts" then FileState.readable "h2" else FileState.unreadable)
    "/etc/passwd" [("/etc/passwd", "h1"), ("/etc/hosts", "h2")] (by decide) (by decide)
  exact ⟨h.1, h.2.trans (by decide)⟩

/-! ## Auth-failure counting -/

lemma count_recent_failures_skip (pre rest : List LogFile) (lines : List String)
    (hpre : ∀ f ∈ pre, f = LogFile.absent ∨ f = LogFile.unreadable) :
    count_recent_failures (pre ++ LogFile.readable lines :: rest)
      = min ((lines.filter lineMatchesAuth).length) 500 := by
  induction pre with
  | nil =>
    show count_recent_failures (LogFile.readable lines :: rest) = _
    simp only [count_recent_failures, List.length_drop]
    omega
  | cons f pre ih =>
    have hrest : ∀ g ∈ pre, g = LogFile.absent ∨ g = LogFile.unreadable :=
      fun g hg => hpre g (List.mem_cons_of_mem _ hg)
    rcases hpre f (List.mem_cons_self _ _) with rfl | rfl
    · show count_recent_failures (LogFile.absent :: (pre ++ LogFile.readable lines :: rest)) = _
      simp only [count_recent_failures]
      exact ih hrest
    · show count_recent_failures (LogFile.unreadable :: (pre ++ LogFile.readable lines :: rest)) = _
      simp only [count_recent_failures]
      exact ih hrest

/-- Counterexample to claim C10: a log whose 5 matching lines are followed
by 500 non-matching lines.  Within the last 500 lines of the file there is
no match (the spec count is 0, below the default threshold 5), yet the
code filters the *whole* file before truncating, counts 5, and emits the
event. -/
theorem auth_count_counterexample :
    (AuthFailureDetector.check 5 300
        [LogFile.readable (List.replicate 5 "Failed password for root from 10.0.0.1" ++
          List.replicate 500 "session opened for user root")]).isSome = true ∧
      auth_count_spec (List.replicate 5 "Failed password for root from 10.0.0.1" ++
        List.replicate 500 "session opened for user root") = 0 ∧
      auth_count_spec (List.replicate 5 "Failed password for root from 10.0.0.1" ++
        List.replicate 500 "session opened for user root") < 5 := by
  have hA : lineMatchesAuth "Failed password for root from 10.0.0.1" = true := by decide
  have hB : lineMatchesAuth "session opened for user root" = false := by decide
  have hfilter : (List.replicate 5 "Failed password for root from 10.0.0.1" ++
      List.replicate 500 "session opened for user root").filter lineMatchesAuth
        = List.replicate 5 "Failed password for root from 10.0.0.1" := by
    rw [List.filter_append, List.filter_replicate, List.filter_replicate, hA, hB]
    simp
  have hcount : count_recent_failures
      [LogFile.readable (List.replicate 5 "Failed password for root from 10.0.0.1" ++
        List.replicate 500 "session opened for user root")] = 5 := by
    have h0 := count_recent_failures_skip [] []
      (List.replicate 5 "Failed password for root from 10.0.0.1" ++
        List.replicate 500 "session opened for user root") (by simp)
    simp only [List.nil_append] at h0
    rw [h0, hfilter]
    simp only [List.length_replicate]
    omega
  have hspec : auth_count_spec (List.replicate 5 "Failed password for root from 10.0.0.1" ++
      List.replicate 500 "session opened for user root") = 0 := by
    unfold auth_count_spec
    have hlen : (List.replicate 5 "Failed password for root from 10.0.0.1" ++
        List.replicate 500 "session opened for user root").length - 500 = 5 := by
      simp only [List.length_append, List.length_replicate]
    rw [hlen]
    have hdrop : List.drop 5 (List.replicate 5 "Failed password for root from 10.0.0.1" ++
        List.replicate 500 "session opened for user root")
          = List.replicate 500 "session opened for user root" := by
      exact List.drop_left' (by simp only [List.length_replicate])
    rw [hdrop, List.filter_replicate, hB]
    simp
  refine ⟨?_, hspec, by omega⟩
  unfold AuthFailureDetector.check
  rw [hcount]
  decide

/-- Claim C10 (amended): the detector counts the lines matching
`Failed password | Invalid user | authentication failure`
(case-insensitive) in the *whole* first readable file among
`/var/log/auth.log` and `/var/log/secure`, capped at 500 (the last 500
elements of the list of matching lines); exactly when that count reaches
the threshold (default 5) it emits one `auth_failures` event of severity
P2 whose confidence is `min(1, count/(2·threshold))` for any positive
threshold. -/
theorem auth_check_amended (threshold window_sec : Nat) (pre rest : List LogFile)
    (lines : List String)
    (hpre : ∀ f ∈ pre, f = LogFile.absent ∨ f = LogFile.unreadable) :
    count_recent_failures (pre ++ LogFile.readable lines :: rest)
        = min ((lines.filter lineMatchesAuth).length) 500 ∧
      AuthFailureDetector.check threshold window_sec (pre ++ LogFile.readable lines :: rest)
        = (if threshold ≤ min ((lines.filter lineMatchesAuth).length) 500
           then some (authEvent (min ((lines.filter lineMatchesAuth).length) 500)
             threshold window_sec)
           else none) ∧
      (authEvent (min ((lines.filter lineMatchesAuth).length) 500)
        threshold window_sec).severity = "P2" ∧
      (authEvent (min ((lines.filter lineMatchesAuth).length) 500)
        threshold window_sec).event_type = "auth_failures" ∧
      (∀ count : Nat, 1 ≤ threshold →
        (authEvent count threshold window_sec).confidence
          = min 1 ((count : ℚ) / ((2 * threshold : ℕ) : ℚ))) := by
  have hcnt := count_recent_failures_skip pre rest lines hpre
  refine ⟨hcnt, ?_, rfl, rfl, ?_⟩
  · unfold AuthFailureDetector.check
    rw [hcnt]
  · intro count ht
    show min 1 ((count : ℚ) / ((max (threshold * 2) 1 : ℕ) : ℚ)) = _
    rw [show max (threshold * 2) 1 = 2 * threshold by omega]

/-- Witness for the amended C10: `/var/log/auth.log` absent, the second
log readable with 6 matching lines among 4 others — the event fires with
count 6 and confidence 6/10. -/
theorem auth_check_amended_witness :
    AuthFailureDetector.check 5 300
        [LogFile.absent, LogFile.readable (List.replicate 6 "Invalid user admin from host" ++
          List.replicate 4 "session opened")]
      = some (authEvent 6 5 300) ∧
      (authEvent 6 5 300).confidence = min 1 ((6 : ℚ) / 10) := by
  have h := auth_check_amended 5 300 [LogFile.absent] []
    (List.replicate 6 "Invalid user admin from host" ++ List.replicate 4 "session opened")
    (by decide)
  simp only [List.cons_append, List.nil_append] at h
  have hf : (List.replicate 6 "Invalid user admin from host" ++
      List.replicate 4 "session opened").filter lineMatchesAuth
        = List.replicate 6 "Invalid user admin from host" := by
    rw [List.filter_append, List.filter_replicate, List.filter_replicate,
      show lineMatchesAuth "Invalid user admin from host" = true from by decide,
      show lineMatchesAuth "session opened" = false from by decide]
    simp
  have hmin : min ((List.replicate 6 "Invalid user admin from host" ++
      List.replicate 4 "session opened").filter lineMatchesAuth).length 500 = 6 := by
    rw [hf]
    simp only [List.length_replicate]
    omega
  refine ⟨?_, ?_⟩
  · rw [h.2.1, hmin]
    norm_num
  · have hc := h.2.2.2.2 6 (by norm_num)
    rw [hc]
    norm_num

/-! ## Prefix-only whitelist matching

All whitelist patterns are only anchored on the left, so whatever follows
a matching head — shell metacharacters included — is accepted, and the
loop hands the full string to `create_subprocess_shell`. -/

lemma dropWhile_append_cons {α : Type} (p : α → Bool) (x : α) (hx : p x = false)
    (l1 m : List α) : (l1 ++ x :: m).dropWhile p = l1.dropWhile p ++ x :: m := by
  induction l1 with
  | nil => simp [List.dropWhile_cons, hx]
  | cons c cs ih =>
    by_cases hc : p c = true
    · simp [List.dropWhile_cons, hc, ih]
    · simp [List.dropWhile_cons, hc]

lemma rdropWhile_append_left {α : Type} (p : α → Bool) (c : List α) (x : α)
    (hx : p x = false) (t : List α) :
    ((c ++ [x]) ++ t).rdropWhile p = (c ++ [x]) ++ t.rdropWhile p := by
  simp only [List.rdropWhile, List.reverse_append, List.reverse_singleton,
    List.singleton_append]
  rw [dropWhile_append_cons p x hx]
  simp [List.reverse_append]

lemma dropWhile_head_not {α : Type} (p : α → Bool) :
    ∀ (l : List α) (c : α) (m' : List α), l.dropWhile p = c :: m' → p c = false := by
  intro l
  induction l with
  | nil => intro c m' h; cases h
  | cons a t ih =>
    intro c m' h
    rw [List.dropWhile_cons] at h
    by_cases ha : p a = true
    · rw [if_pos ha] at h
      exact ih c m' h
    · rw [if_neg ha] at h
      cases h
      exact eq_false_of_ne_true ha

lemma dropWhile_rdropWhile_dropWhile (l : List Char) :
    ((l.dropWhile isWs).rdropWhile isWs).dropWhile isWs
      = (l.dropWhile isWs).rdropWhile isWs := by
  cases hm : l.dropWhile isWs with
  | nil => simp [List.rdropWhile]
  | cons c m' =>
    have hc : isWs c = false := dropWhile_head_not isWs l c m' hm
    have hform : (c :: m').rdropWhile isWs = c :: (m'.reverse.dropWhile isWs).reverse := by
      simp only [List.rdropWhile, List.reverse_cons]
      rw [dropWhile_append_cons isWs c hc]
      simp
    rw [hform, List.dropWhile_cons, if_neg (by simp [hc])]

lemma pyStrip_idem (l : List Char) : pyStrip (pyStrip l) = pyStrip l := by
  unfold pyStrip pyLStrip pyRStrip
  rw [dropWhile_rdropWhile_dropWhile, List.rdropWhile_idempotent]

lemma is_command_allowed_pyStripS (cmd : String) :
    is_command_allowed (pyStripS cmd) = is_command_allowed cmd := by
  unfold is_command_allowed pyStripS
  rw [show (String.mk (pyStrip cmd.data)).data = pyStrip cmd.data from rfl, pyStrip_idem]

/-- Stripping a string that extends a non-whitespace-delimited head only
touches the tail: `y` is the first and `x` the last character of the
preserved head. -/
lemma pyStrip_concat (y : Char) (b : List Char) (x : Char) (t : List Char)
    (hy : isWs y = false) (hx : isWs x = false) :
    pyStrip ((y :: (b ++ [x])) ++ t) = (y :: (b ++ [x])) ++ pyRStrip t := by
  unfold pyStrip pyLStrip pyRStrip
  have h1 : ((y :: (b ++ [x])) ++ t).dropWhile isWs = (y :: (b ++ [x])) ++ t := by
    rw [List.cons_append, List.dropWhile_cons, if_neg (by simp [hy])]
  rw [h1]
  exact rdropWhile_append_left isWs (y :: b) x hx t

lemma patMatch_ss_tail (u : List Char) :
    patMatch ssDashPat ('s' :: 's' :: ' ' :: '-' :: u) = true := rfl

lemma patMatch_dockerps_tail (u : List Char) :
    patMatch dockerPsPat
      ('d' :: 'o' :: 'c' :: 'k' :: 'e' :: 'r' :: ' ' :: 'p' :: 's' :: u) = true := rfl

lemma run_agent_loop_single_done (cmds : List String) :
    run_agent_loop 10 [⟨cmds, true⟩] = stepState ⟨0, 0, [], []⟩ ⟨cmds, true⟩ := by
  show agentLoop (9 + 1) [⟨cmds, true⟩] ⟨0, 0, [], []⟩ = _
  simp [agentLoop]

/-- Claim C3: the whitelist check is a prefix match only — for every
string `s`, appending `s` after a whitelisted head (`"ss -tln; "`,
`"docker ps && "`) still passes `is_command_allowed`; when suggested, the
loop executes the entire stripped string (everything but trailing
whitespace survives), and `_execute_command` passes exactly that whole
string to the shell (`create_subprocess_shell`; no `run_as` configured). -/
theorem whitelist_matches_extended_commands (s : String) :
    is_command_allowed ("ss -tln; " ++ s) = true ∧
      is_command_allowed ("docker ps && " ++ s) = true ∧
      (run_agent_loop 10 [⟨["ss -tln; " ++ s], true⟩]).executed_cmds
          = [pyStripS ("ss -tln; " ++ s)] ∧
      pyStripS ("ss -tln; " ++ s)
          = String.mk ("ss -tln;".data ++ pyRStrip (' ' :: s.data)) ∧
      shell_command none (pyStripS ("ss -tln; " ++ s)) = pyStripS ("ss -tln; " ++ s) := by
  have hcSS : pyStrip (("ss -tln; " ++ s).data)
      = 's' :: 's' :: ' ' :: '-' :: 't' :: 'l' :: 'n' :: ';' :: pyRStrip (' ' :: s.data) := by
    rw [String.data_append]
    exact pyStrip_concat 's' "s -tln".data ';' (' ' :: s.data) (by decide) (by decide)
  have hcDP : pyStrip (("docker ps && " ++ s).data)
      = 'd' :: 'o' :: 'c' :: 'k' :: 'e' :: 'r' :: ' ' :: 'p' :: 's' :: ' ' :: '&' :: '&' ::
          pyRStrip (' ' :: s.data) := by
    rw [String.data_append]
    exact pyStrip_concat 'd' "ocker ps &".data '&' (' ' :: s.data) (by decide) (by decide)
  have hallowSS : is_command_allowed ("ss -tln; " ++ s) = true := by
    unfold is_command_allowed
    rw [hcSS]
    show ALLOWED_COMMANDS.any (fun p =>
      patMatch p ('s' :: 's' :: ' ' :: '-' :: 't' :: 'l' :: 'n' :: ';' ::
        pyRStrip (' ' :: s.data))) = true
    rw [List.any_eq_true]
    exact ⟨ssDashPat, by decide, patMatch_ss_tail _⟩
  have hallowDP : is_command_allowed ("docker ps && " ++ s) = true := by
    unfold is_command_allowed
    rw [hcDP]
    show ALLOWED_COMMANDS.any (fun p =>
      patMatch p ('d' :: 'o' :: 'c' :: 'k' :: 'e' :: 'r' :: ' ' :: 'p' :: 's' :: ' ' ::
        '&' :: '&' :: pyRStrip (' ' :: s.data))) = true
    rw [List.any_eq_true]
    exact ⟨dockerPsPat, by decide, patMatch_dockerps_tail _⟩
  have hpredSS : (!(pyStripS ("ss -tln; " ++ s)).data.isEmpty &&
      is_command_allowed (pyStripS ("ss -tln; " ++ s))) = true := by
    rw [is_command_allowed_pyStripS, hallowSS,
      show (pyStripS ("ss -tln; " ++ s)).data = pyStrip (("ss -tln; " ++ s).data) from rfl,
      hcSS]
    rfl
  have hexec : (run_agent_loop 10 [⟨["ss -tln; " ++ s], true⟩]).executed_cmds
      = [pyStripS ("ss -tln; " ++ s)] := by
    rw [run_agent_loop_single_done]
    show [] ++ execFilter ["ss -tln; " ++ s] = [pyStripS ("ss -tln; " ++ s)]
    rw [List.nil_append]
    unfold execFilter
    simp [hpredSS]
  exact ⟨hallowSS, hallowDP, hexec, congrArg String.mk hcSS, rfl⟩

end OpenSecAgent
